/-
  Verification of the climate-risk-map data-processing pipeline.

  Shallow embedding of the core pipeline functions:
  - model-year coverage validation (`validate_model_years`)
  - decade-month climatology reduction (`decade_month_calc`)
  - ensemble statistics (`reduce_model_stats`)
  - zonal aggregation for lines and polygons (`zonal_aggregation_linestring`,
    `zonal_aggregation_polygon`, `zonal_aggregation`)
  - the transactional bulk-load protocol (`infra_intersection_load_main`)

  Machine integers of the source are modelled as `Nat`/`Int`/`Rat`;
  fallible code returns `Except`.
-/
import Mathlib

set_option maxRecDepth 4000

/-! ## Part A: model temporal-coverage validation

Embeds `validate_model_years` from
`data_processing/infraxclimate/nasa_nex/process_climate.py`.
The year of a zarr store is extracted with the regular expression
`_(\d{4})\.zarr$`: the name matches iff its last ten characters are an
underscore, four digits and the literal suffix `.zarr`. -/

/-- Year extraction from a zarr store path, per the regex search of the
source (anchored at the end of the string, so it inspects the last ten
characters). -/
def extractYear (store : String) : Option Nat :=
  match store.toList.reverse with
  | 'r' :: 'r' :: 'a' :: 'z' :: '.' :: d0 :: d1 :: d2 :: d3 :: '_' :: _ =>
      if d3.isDigit && d2.isDigit && d1.isDigit && d0.isDigit then
        some (1000 * (d3.toNat - 48) + 100 * (d2.toNat - 48) +
              10 * (d1.toNat - 48) + (d0.toNat - 48))
      else
        none
  | _ => none

/-- `HISTORICAL_YEARS = set(range(1950, 2015))` -/
def HISTORICAL_YEARS : Finset Nat := Finset.Ico 1950 2015

/-- `FUTURE_YEARS = set(range(2015, 2101))` -/
def FUTURE_YEARS : Finset Nat := Finset.Ico 2015 2101

/-- The `available_years` set built by the loop of `validate_model_years`:
every store whose name matches the year regex contributes its year to a set. -/
def available_years (zarr_stores : List String) : Finset Nat :=
  (zarr_stores.filterMap extractYear).toFinset

/-- `validate_model_years`: true iff the collected year set equals one of the
two fixed calendars. -/
def validate_model_years (zarr_stores : List String) : Bool :=
  decide (HISTORICAL_YEARS = available_years zarr_stores) ||
    decide (FUTURE_YEARS = available_years zarr_stores)

/-- A store name `_YYYY.zarr` carrying the four-digit year `y`. -/
def mkStore (y : Nat) : String :=
  String.mk ['_', Char.ofNat (48 + y / 1000), Char.ofNat (48 + y / 100 % 10),
             Char.ofNat (48 + y / 10 % 10), Char.ofNat (48 + y % 10),
             '.', 'z', 'a', 'r', 'r']

/-- One store per historical year 1950–2014. -/
def histStores : List String :=
  (List.range 65).map (fun i => mkStore (1950 + i))

example : extractYear "path_1950.zarr" = some 1950 := by decide
example : extractYear "path_1950.zar" = none := by decide
example : extractYear (mkStore 2014) = some 2014 := by decide

lemma validate_remove_dup_aux : ∀ y ∈ List.range' 1950 65,
    validate_model_years (histStores.erase (mkStore y)) = false ∧
    validate_model_years (mkStore y :: histStores) = true := by decide

lemma validate_histStores : validate_model_years histStores = true := by decide

/-- C2: temporal-coverage validation returns true iff the set of years
extracted from the store names equals exactly the historical calendar
1950–2014 or exactly the future calendar 2015–2100; any gap, surplus or
mixture of the two ranges yields false, and no missing year is interpolated. -/
theorem validate_model_years_iff_exact_calendar (zarr_stores : List String) :
    validate_model_years zarr_stores = true ↔
      available_years zarr_stores = HISTORICAL_YEARS ∨
        available_years zarr_stores = FUTURE_YEARS := by
  simp only [validate_model_years, Bool.or_eq_true, decide_eq_true_eq]
  constructor
  · rintro (h | h) <;> [exact Or.inl h.symm; exact Or.inr h.symm]
  · rintro (h | h) <;> [exact Or.inl h.symm; exact Or.inr h.symm]

/-- C7 counterexample: duplicating the 1950 store of a list that covers
1950–2014 exactly leaves coverage validation `true` — years are collected
into a set, so a duplicated store does not change the year set — refuting
the claim that duplicating any single year's store makes validation false. -/
theorem validate_model_years_duplicate_still_true :
    validate_model_years (mkStore 1950 :: histStores) = true := by decide

/-- C7 amended: for a store list whose extracted years exactly match
1950–2014 (one store per year), validation returns true; removing any single
year's store makes it false; duplicating any single year's store leaves it
true, because the years are collected into a set. -/
theorem validate_model_years_remove_false_duplicate_true (y : Nat)
    (hy : y ∈ List.range' 1950 65) :
    validate_model_years histStores = true ∧
    validate_model_years (histStores.erase (mkStore y)) = false ∧
    validate_model_years (mkStore y :: histStores) = true :=
  ⟨validate_histStores, validate_remove_dup_aux y hy⟩

/-- Witness for C7's amended theorem at the concrete year 1960. -/
theorem validate_model_years_remove_false_duplicate_true_witness :
    1960 ∈ List.range' 1950 65 ∧
    (validate_model_years histStores = true ∧
     validate_model_years (histStores.erase (mkStore 1960)) = false ∧
     validate_model_years (mkStore 1960 :: histStores) = true) :=
  ⟨by decide, validate_model_years_remove_false_duplicate_true 1960 (by decide)⟩

/-! ## Part B: decade-month climatology reduction

Embeds `decade_month_calc` from
`data_processing/infraxclimate/nasa_nex/process_climate.py` (the identical
function also appears in `scenariomip/process_climate.py`): every time sample
gets the coordinate `f"{decade}-{month:02d}"` with `decade = (year // 10) * 10`,
and the dataset is group-by-mean reduced over that coordinate. A series is a
list of (time stamp, value) samples; values are rationals. -/

/-- The calendar time stamp of one sample. -/
structure TimeStamp where
  year : Nat
  month : Nat
deriving DecidableEq

/-- Zero-padded two-digit rendering of the month, as in `02d` formatting. -/
def pad2 (m : Nat) : String :=
  if m < 10 then "0" ++ toString m else toString m

/-- The combined decade-month coordinate string, with
`decade = (year // 10) * 10` (floor division). -/
def decade_month_label (t : TimeStamp) : String :=
  toString (t.year / 10 * 10) ++ "-" ++ pad2 t.month

/-- Arithmetic mean of a list of values. -/
def listMean (l : List ℚ) : ℚ := l.sum / l.length

/-- `decade_month_calc`: label every sample with its decade-month string and
mean-reduce all samples sharing a label (the groupby-mean of the source):
one `(label, mean of the group)` pair per distinct label. -/
def decade_month_calc (series : List (TimeStamp × ℚ)) : List (String × ℚ) :=
  ((series.map (fun p => decade_month_label p.1)).dedup).map
    (fun L => (L, listMean ((series.filter
      (fun p => decade_month_label p.1 == L)).map Prod.snd)))

/-- A 10-year monthly series over the decade starting at year `d`:
120 samples, where the sample of year `d + i`, month `j + 1` carries the
value `v (d + i) (j + 1)`. -/
def decadeSeries (d : Nat) (v : Nat → Nat → ℚ) : List (TimeStamp × ℚ) :=
  (List.range 10).flatMap (fun i =>
    (List.range 12).map (fun j => (⟨d + i, j + 1⟩, v (d + i) (j + 1))))

lemma flatMap_congr_mem {α β : Type} {l : List α} {f g : α → List β}
    (h : ∀ a ∈ l, f a = g a) : l.flatMap f = l.flatMap g := by
  induction l with
  | nil => rfl
  | cons a l ih =>
      simp only [List.flatMap_cons]
      rw [h a (List.mem_cons_self a l), ih (fun b hb => h b (List.mem_cons_of_mem a hb))]

lemma string_append_left_cancel {a b c : String} (h : a ++ b = a ++ c) : b = c := by
  have hd := congrArg String.data h
  simp at hd
  exact String.ext hd

lemma pad2_inj_aux : ∀ j1 ∈ List.range 12, ∀ j2 ∈ List.range 12,
    pad2 (j1 + 1) = pad2 (j2 + 1) → j1 = j2 := by decide

lemma flatMap_pure {α β : Type} (l : List α) (f : α → β) :
    l.flatMap (fun a => [f a]) = l.map f := by
  induction l with
  | nil => rfl
  | cons a l ih => simp [List.flatMap_cons, ih]

lemma range_filter_beq {n j : Nat} (h : j < n) :
    (List.range n).filter (fun x => x == j) = [j] := by
  rw [show (fun x => x == j) = (fun x => decide (x = j)) from rfl,
    List.filter_eq, List.count_eq_one_of_mem (List.nodup_range n) (List.mem_range.2 h)]
  simp

lemma label_decade {d i m : Nat} (hd : d % 10 = 0) (hi : i < 10) :
    decade_month_label ⟨d + i, m⟩ = toString d ++ "-" ++ pad2 m := by
  have hdiv : (d + i) / 10 * 10 = d := by omega
  show toString ((d + i) / 10 * 10) ++ "-" ++ pad2 m = _
  rw [hdiv]

lemma dedup_toFinset {α : Type} [DecidableEq α] (l : List α) :
    l.dedup.toFinset = l.toFinset := by
  apply Finset.ext
  intro a
  simp [List.mem_toFinset, List.mem_dedup]

/-- C3: the decade-month reduction labels every sample with
`"{decade}-{month:02d}"` where `decade = floor(year/10)*10`, and mean-reduces
all samples sharing a label: for a 10-year monthly series of 120 samples over
the decade starting at `d`, the result has exactly 12 distinct decade-month
labels, and the entry for each month is the arithmetic mean of its 10
contributing samples. -/
theorem decade_month_calc_ten_year_series (d : Nat) (v : Nat → Nat → ℚ)
    (hd : d % 10 = 0) :
    (decade_month_calc (decadeSeries d v)).length = 12 ∧
    ∀ j < 12,
      (decade_month_label ⟨d, j + 1⟩,
        ((List.range 10).map (fun i => v (d + i) (j + 1))).sum / 10)
        ∈ decade_month_calc (decadeSeries d v) := by
  have hlabels : (decadeSeries d v).map (fun p => decade_month_label p.1) =
      (List.range 10).flatMap (fun _ =>
        (List.range 12).map (fun j => toString d ++ "-" ++ pad2 (j + 1))) := by
    unfold decadeSeries
    rw [List.map_flatMap]
    apply flatMap_congr_mem
    intro i hi
    rw [List.map_map]
    apply List.map_congr_left
    intro j hj
    exact label_decade hd (List.mem_range.1 hi)
  constructor
  · -- length part
    unfold decade_month_calc
    rw [List.length_map]
    rw [← List.toFinset_card_of_nodup (List.nodup_dedup _)]
    rw [dedup_toFinset, hlabels]
    have hB : ((List.range 12).map (fun j => toString d ++ "-" ++ pad2 (j + 1))).Nodup := by
      apply List.Nodup.map_on _ (List.nodup_range 12)
      intro j1 h1 j2 h2 heq
      exact pad2_inj_aux j1 h1 j2 h2 (string_append_left_cancel heq)
    have hset : ((List.range 10).flatMap (fun _ =>
        (List.range 12).map (fun j => toString d ++ "-" ++ pad2 (j + 1)))).toFinset =
        ((List.range 12).map (fun j => toString d ++ "-" ++ pad2 (j + 1))).toFinset := by
      apply Finset.ext
      intro a
      simp only [List.mem_toFinset, List.mem_flatMap]
      constructor
      · rintro ⟨i, _, ha⟩; exact ha
      · intro ha; exact ⟨0, by simp, ha⟩
    rw [hset, List.toFinset_card_of_nodup hB, List.length_map, List.length_range]
  · -- membership part
    intro j hj
    have hlab : decade_month_label ⟨d, j + 1⟩ = toString d ++ "-" ++ pad2 (j + 1) := by
      have := label_decade (d := d) (i := 0) (m := j + 1) hd (by norm_num)
      simpa using this
    set L := toString d ++ "-" ++ pad2 (j + 1) with hL
    have hmemL : L ∈ ((decadeSeries d v).map (fun p => decade_month_label p.1)).dedup := by
      rw [List.mem_dedup, hlabels]
      exact List.mem_flatMap.2 ⟨0, by simp, List.mem_map.2 ⟨j, List.mem_range.2 hj, rfl⟩⟩
    have hfilter : (decadeSeries d v).filter (fun p => decade_month_label p.1 == L) =
        (List.range 10).map (fun i => ((⟨d + i, j + 1⟩ : TimeStamp), v (d + i) (j + 1))) := by
      unfold decadeSeries
      rw [List.filter_flatMap]
      have hstep : ∀ i ∈ List.range 10,
          ((List.range 12).map
            (fun j2 => ((⟨d + i, j2 + 1⟩ : TimeStamp), v (d + i) (j2 + 1)))).filter
              (fun p => decade_month_label p.1 == L) =
          [((⟨d + i, j + 1⟩ : TimeStamp), v (d + i) (j + 1))] := by
        intro i hi
        rw [List.filter_map]
        have hpred : ∀ j2 ∈ List.range 12,
            ((fun p => decade_month_label p.1 == L) ∘
              (fun j2 => ((⟨d + i, j2 + 1⟩ : TimeStamp), v (d + i) (j2 + 1)))) j2 =
            (j2 == j) := by
          intro j2 hj2
          simp only [Function.comp]
          by_cases h : j2 = j
          · subst h
            simp [label_decade hd (List.mem_range.1 hi), hL]
          · have hne : decade_month_label ⟨d + i, j2 + 1⟩ ≠ L := by
              rw [label_decade hd (List.mem_range.1 hi), hL]
              intro hcontra
              exact h (pad2_inj_aux j2 hj2 j (List.mem_range.2 hj)
                (string_append_left_cancel hcontra))
            simp [hne, h]
        rw [List.filter_congr hpred, range_filter_beq hj]
        rfl
      rw [flatMap_congr_mem hstep, flatMap_pure]
    have hval : listMean (((decadeSeries d v).filter
        (fun p => decade_month_label p.1 == L)).map Prod.snd) =
        ((List.range 10).map (fun i => v (d + i) (j + 1))).sum / 10 := by
      rw [hfilter, List.map_map]
      unfold listMean
      have hmap : (List.range 10).map (Prod.snd ∘ fun i =>
          ((⟨d + i, j + 1⟩ : TimeStamp), v (d + i) (j + 1))) =
          (List.range 10).map (fun i => v (d + i) (j + 1)) := by
        apply List.map_congr_left
        intro i _
        rfl
      rw [hmap, List.length_map, List.length_range]
      norm_num
    unfold decade_month_calc
    rw [hlab, ← hval]
    exact List.mem_map.2 ⟨L, hmemL, rfl⟩

/-- Witness for C3 at the decade 2050 and the value function `v y m = y * m`. -/
theorem decade_month_calc_ten_year_series_witness :
    2050 % 10 = 0 ∧
    ((decade_month_calc (decadeSeries 2050 (fun y m => (y * m : ℚ)))).length = 12 ∧
     ∀ j < 12,
       (decade_month_label ⟨2050, j + 1⟩,
         ((List.range 10).map (fun i => ((2050 + i : ℕ) : ℚ) * ((j + 1 : ℕ) : ℚ))).sum / 10)
         ∈ decade_month_calc (decadeSeries 2050 (fun y m => (y * m : ℚ)))) :=
  ⟨by decide, decade_month_calc_ten_year_series 2050 (fun y m => (y * m : ℚ)) (by decide)⟩

/-! ## Part C: ensemble statistics

Embeds `reduce_model_stats` from
`data_processing/infraxclimate/nasa_nex/process_climate.py`: per decade-month
per grid cell, the statistics across the `model` dimension (numpy semantics:
`mean`, `median`, `std` with `ddof = 0`, `min`, `max`, `quantile` with linear
interpolation), and the `sample_size` attribute derived from the
`ensemble_members` attribute that `load_data` sets to the stacked model
names. -/

/-- Sorted copy of the values, ascending. -/
def sortQ (l : List ℚ) : List ℚ := l.insertionSort (· ≤ ·)

/-- Mean along the model axis (`da.mean(dim="model")` per cell). -/
def npMean (xs : List ℚ) : ℚ := xs.sum / xs.length

/-- Median along the model axis (`da.median`): middle of the sorted values
for an odd count, mean of the two middle values for an even count. -/
def npMedian (xs : List ℚ) : ℚ :=
  if xs.length % 2 = 1 then (sortQ xs).getD (xs.length / 2) 0
  else ((sortQ xs).getD (xs.length / 2 - 1) 0 + (sortQ xs).getD (xs.length / 2) 0) / 2

/-- Squared population standard deviation (`da.std`, `ddof = 0`): the mean of
the squared deviations. The source's stddev is the square root of this; the
embedding tracks the square so that all values stay rational, and
`stddev = 0` exactly when this is `0`. -/
def npVarP (xs : List ℚ) : ℚ :=
  (xs.map (fun x => (x - npMean xs) ^ 2)).sum / xs.length

/-- Minimum along the model axis (`da.min`). -/
def npMinimum (xs : List ℚ) : ℚ :=
  match xs with
  | [] => 0
  | x :: r => r.foldl min x

/-- Maximum along the model axis (`da.max`). -/
def npMaximum (xs : List ℚ) : ℚ :=
  match xs with
  | [] => 0
  | x :: r => r.foldl max x

/-- Quantile with the default linear interpolation (`da.quantile`): with
`h = q * (n - 1)`, the value `s[⌊h⌋] + (h - ⌊h⌋) * (s[⌈h⌉] - s[⌊h⌋])` on the
sorted values, the upper index clipped to `n - 1`. -/
def npQuantile (xs : List ℚ) (q : ℚ) : ℚ :=
  (sortQ xs).getD (⌊q * ((xs.length : ℚ) - 1)⌋).toNat 0 +
    (q * ((xs.length : ℚ) - 1) - ⌊q * ((xs.length : ℚ) - 1)⌋) *
      ((sortQ xs).getD (min ((⌊q * ((xs.length : ℚ) - 1)⌋).toNat + 1) (xs.length - 1)) 0 -
        (sortQ xs).getD (⌊q * ((xs.length : ℚ) - 1)⌋).toNat 0)

/-- The per-cell statistic variables of the ensemble dataset. -/
structure EnsembleStats where
  value_mean : ℚ
  value_median : ℚ
  value_stddev_sq : ℚ
  value_min : ℚ
  value_max : ℚ
  value_q1 : ℚ
  value_q3 : ℚ
deriving DecidableEq

/-- `reduce_model_stats`, per decade-month per grid cell: the list `xs` holds
the cell's value for each model of the stack (the model axis), and the result
holds the statistics across that axis. -/
def reduce_model_stats (xs : List ℚ) : EnsembleStats where
  value_mean := npMean xs
  value_median := npMedian xs
  value_stddev_sq := npVarP xs
  value_min := npMinimum xs
  value_max := npMaximum xs
  value_q1 := npQuantile xs (1/4)
  value_q3 := npQuantile xs (3/4)

/-- Spec-side quantile: linear interpolation between adjacent order
statistics — with `h = q * (n - 1)`, `k = ⌊h⌋` and `γ = h - k`, the value is
`(1 - γ) * s_k + γ * s_(k+1)`. -/
def spec_quantile (xs : List ℚ) (q : ℚ) : ℚ :=
  (1 - (q * ((xs.length : ℚ) - 1) - ⌊q * ((xs.length : ℚ) - 1)⌋)) *
      (sortQ xs).getD (⌊q * ((xs.length : ℚ) - 1)⌋).toNat 0 +
    (q * ((xs.length : ℚ) - 1) - ⌊q * ((xs.length : ℚ) - 1)⌋) *
      (sortQ xs).getD ((⌊q * ((xs.length : ℚ) - 1)⌋).toNat + 1) 0

/-- The spec's description of the per-cell ensemble statistics. -/
def ensembleStatsCorrect (xs : List ℚ) : Prop :=
  (reduce_model_stats xs).value_mean = xs.sum / xs.length ∧
  (reduce_model_stats xs).value_median = spec_quantile xs (1/2) ∧
  (reduce_model_stats xs).value_stddev_sq =
    (xs.map (fun x => (x - xs.sum / xs.length) ^ 2)).sum / xs.length ∧
  (reduce_model_stats xs).value_min ∈ xs ∧
  (∀ y ∈ xs, (reduce_model_stats xs).value_min ≤ y) ∧
  (reduce_model_stats xs).value_max ∈ xs ∧
  (∀ y ∈ xs, y ≤ (reduce_model_stats xs).value_max) ∧
  (reduce_model_stats xs).value_q1 = spec_quantile xs (1/4) ∧
  (reduce_model_stats xs).value_q3 = spec_quantile xs (3/4) ∧
  (xs.length = 1 → (reduce_model_stats xs).value_stddev_sq = 0)

lemma foldl_min_mem (r : List ℚ) (x : ℚ) : r.foldl min x ∈ x :: r := by
  induction r generalizing x with
  | nil => simp
  | cons a r ih =>
      have h := ih (min x a)
      rcases List.mem_cons.1 h with h1 | h1
      · rcases min_choice x a with hm | hm <;> rw [List.foldl_cons, h1, hm] <;> simp
      · simp [List.foldl_cons, List.mem_cons.2 (Or.inr (List.mem_cons.2 (Or.inr h1)))]

lemma foldl_min_le (r : List ℚ) (x : ℚ) :
    r.foldl min x ≤ x ∧ ∀ y ∈ r, r.foldl min x ≤ y := by
  induction r generalizing x with
  | nil => simp
  | cons a r ih =>
      obtain ⟨h1, h2⟩ := ih (min x a)
      refine ⟨le_trans h1 (min_le_left x a), ?_⟩
      intro y hy
      rcases List.mem_cons.1 hy with rfl | hy
      · exact le_trans h1 (min_le_right x y)
      · exact h2 y hy

lemma foldl_max_mem (r : List ℚ) (x : ℚ) : r.foldl max x ∈ x :: r := by
  induction r generalizing x with
  | nil => simp
  | cons a r ih =>
      have h := ih (max x a)
      rcases List.mem_cons.1 h with h1 | h1
      · rcases max_choice x a with hm | hm <;> rw [List.foldl_cons, h1, hm] <;> simp
      · simp [List.foldl_cons, List.mem_cons.2 (Or.inr (List.mem_cons.2 (Or.inr h1)))]

lemma foldl_max_le (r : List ℚ) (x : ℚ) :
    x ≤ r.foldl max x ∧ ∀ y ∈ r, y ≤ r.foldl max x := by
  induction r generalizing x with
  | nil => simp
  | cons a r ih =>
      obtain ⟨h1, h2⟩ := ih (max x a)
      refine ⟨le_trans (le_max_left x a) h1, ?_⟩
      intro y hy
      rcases List.mem_cons.1 hy with rfl | hy
      · exact le_trans (le_max_right x y) h1
      · exact h2 y hy

lemma npQuantile_eq_spec (xs : List ℚ) (hne : xs ≠ []) (q : ℚ)
    (h0 : 0 ≤ q) (h1 : q ≤ 1) : npQuantile xs q = spec_quantile xs q := by
  have hn : 1 ≤ xs.length := List.length_pos.2 hne
  unfold npQuantile spec_quantile
  set s := sortQ xs with hs
  set h : ℚ := q * ((xs.length : ℚ) - 1) with hh
  have hn1 : (0:ℚ) ≤ (xs.length : ℚ) - 1 := by
    have hc : (1:ℚ) ≤ (xs.length : ℚ) := by exact_mod_cast hn
    linarith
  have hh0 : 0 ≤ h := by rw [hh]; exact mul_nonneg h0 hn1
  have hhle : h ≤ (xs.length : ℚ) - 1 := by
    rw [hh]
    calc q * ((xs.length : ℚ) - 1) ≤ 1 * ((xs.length : ℚ) - 1) :=
          mul_le_mul_of_nonneg_right h1 hn1
    _ = (xs.length : ℚ) - 1 := one_mul _
  have hfl0 : 0 ≤ ⌊h⌋ := Int.floor_nonneg.2 hh0
  by_cases hg : h - ⌊h⌋ = 0
  · rw [hg]
    ring
  · have hglt : (⌊h⌋ : ℚ) < h :=
      lt_of_le_of_ne (Int.floor_le h) (fun hc => hg (by rw [hc]; ring))
    have hzlt : ⌊h⌋ < (xs.length : ℤ) - 1 := by
      have h2 := lt_of_lt_of_le hglt hhle
      exact_mod_cast h2
    have hkn : (⌊h⌋).toNat + 1 ≤ xs.length - 1 := by omega
    rw [min_eq_left hkn]
    ring

lemma floor_natCast_sub_half (m : ℕ) (hm : 1 ≤ m) : ⌊(m : ℚ) - 1/2⌋ = (m : ℤ) - 1 := by
  have hc : (1:ℚ) ≤ (m:ℚ) := by exact_mod_cast hm
  rw [Int.floor_eq_iff]
  constructor
  · push_cast; linarith
  · push_cast; linarith

lemma npMedian_eq_spec (xs : List ℚ) (hne : xs ≠ []) :
    npMedian xs = spec_quantile xs (1/2) := by
  have hn : 1 ≤ xs.length := List.length_pos.2 hne
  unfold npMedian spec_quantile
  rcases Nat.even_or_odd xs.length with he | ho
  · obtain ⟨m, hm⟩ := he
    have hm1 : 1 ≤ m := by omega
    have hmod : ¬ (xs.length % 2 = 1) := by omega
    have hval : (1/2 : ℚ) * ((xs.length : ℚ) - 1) = (m : ℚ) - 1/2 := by
      have hc : (xs.length : ℚ) = 2 * m := by rw [hm]; push_cast; ring
      rw [hc]; ring
    rw [hval, floor_natCast_sub_half m hm1]
    have hk : ((m : ℤ) - 1).toNat = m - 1 := by omega
    rw [hk]
    have hdiv : xs.length / 2 = m := by omega
    rw [if_neg hmod, hdiv]
    rw [show m - 1 + 1 = m from by omega]
    have hg : ((m : ℚ) - 1/2) - (((m : ℤ) - 1 : ℤ) : ℚ) = 1/2 := by push_cast; ring
    rw [hg]
    ring
  · obtain ⟨m, hm⟩ := ho
    have hmod : xs.length % 2 = 1 := by omega
    have hval : (1/2 : ℚ) * ((xs.length : ℚ) - 1) = (m : ℚ) := by
      have hc : (xs.length : ℚ) = 2 * m + 1 := by rw [hm]; push_cast; ring
      rw [hc]; ring
    rw [hval, Int.floor_natCast]
    have hk : ((m : ℤ)).toNat = m := by omega
    rw [hk]
    have hdiv : xs.length / 2 = m := by omega
    rw [if_pos hmod, hdiv]
    push_cast
    ring

/-- C4: per decade-month per grid cell, ensemble reduction computes across
the model axis the arithmetic mean, the median (the 50th percentile under
linear interpolation), the population standard deviation (`ddof = 0`, stated
on its square so values stay rational; in particular it is `0` for a
one-model ensemble), the min and max (members of and bounds on the values),
and the 25th/75th percentiles with linear interpolation between order
statistics. -/
theorem reduce_model_stats_correct (xs : List ℚ) (hne : xs ≠ []) :
    ensembleStatsCorrect xs := by
  obtain ⟨x, r, rfl⟩ := List.exists_cons_of_ne_nil hne
  unfold ensembleStatsCorrect
  refine ⟨rfl, npMedian_eq_spec _ hne, rfl, ?_, ?_, ?_, ?_,
    npQuantile_eq_spec _ hne _ (by norm_num) (by norm_num),
    npQuantile_eq_spec _ hne _ (by norm_num) (by norm_num), ?_⟩
  · exact foldl_min_mem r x
  · intro y hy
    rcases List.mem_cons.1 hy with rfl | hy
    · exact (foldl_min_le r y).1
    · exact (foldl_min_le r x).2 y hy
  · exact foldl_max_mem r x
  · intro y hy
    rcases List.mem_cons.1 hy with rfl | hy
    · exact (foldl_max_le r y).1
    · exact (foldl_max_le r x).2 y hy
  · intro hlen
    have hr : r = [] := by simpa using hlen
    subst hr
    simp [reduce_model_stats, npVarP, npMean]

lemma sortQ_perm_eq {xs ys : List ℚ} (h : xs.Perm ys) : sortQ xs = sortQ ys := by
  unfold sortQ
  exact List.eq_of_perm_of_sorted
    ((List.perm_insertionSort _ xs).trans (h.trans (List.perm_insertionSort _ ys).symm))
    (List.sorted_insertionSort _ xs)
    (List.sorted_insertionSort _ ys)

lemma npMinimum_mem {xs : List ℚ} (hne : xs ≠ []) : npMinimum xs ∈ xs := by
  obtain ⟨x, r, rfl⟩ := List.exists_cons_of_ne_nil hne
  exact foldl_min_mem r x

lemma npMinimum_le {xs : List ℚ} : ∀ y ∈ xs, npMinimum xs ≤ y := by
  cases xs with
  | nil => intro y hy; simp at hy
  | cons x r =>
      intro y hy
      rcases List.mem_cons.1 hy with rfl | hy
      · exact (foldl_min_le r y).1
      · exact (foldl_min_le r x).2 y hy

lemma npMaximum_mem {xs : List ℚ} (hne : xs ≠ []) : npMaximum xs ∈ xs := by
  obtain ⟨x, r, rfl⟩ := List.exists_cons_of_ne_nil hne
  exact foldl_max_mem r x

lemma npMaximum_le {xs : List ℚ} : ∀ y ∈ xs, y ≤ npMaximum xs := by
  cases xs with
  | nil => intro y hy; simp at hy
  | cons x r =>
      intro y hy
      rcases List.mem_cons.1 hy with rfl | hy
      · exact (foldl_max_le r y).1
      · exact (foldl_max_le r x).2 y hy

lemma npMinimum_perm {xs ys : List ℚ} (h : xs.Perm ys) : npMinimum xs = npMinimum ys := by
  cases xs with
  | nil =>
      have hy : ys = [] := h.symm.eq_nil
      rw [hy]
  | cons x r =>
      have hne : (x :: r) ≠ [] := by simp
      have hne2 : ys ≠ [] := by
        intro hc
        subst hc
        exact absurd h.eq_nil (by simp)
      exact le_antisymm
        (npMinimum_le _ (h.mem_iff.2 (npMinimum_mem hne2)))
        (npMinimum_le _ (h.mem_iff.1 (npMinimum_mem hne)))

lemma npMaximum_perm {xs ys : List ℚ} (h : xs.Perm ys) : npMaximum xs = npMaximum ys := by
  cases xs with
  | nil =>
      have hy : ys = [] := h.symm.eq_nil
      rw [hy]
  | cons x r =>
      have hne : (x :: r) ≠ [] := by simp
      have hne2 : ys ≠ [] := by
        intro hc
        subst hc
        exact absurd h.eq_nil (by simp)
      exact le_antisymm
        (npMaximum_le _ (h.mem_iff.1 (npMaximum_mem hne)))
        (npMaximum_le _ (h.mem_iff.2 (npMaximum_mem hne2)))

lemma npMean_perm {xs ys : List ℚ} (h : xs.Perm ys) : npMean xs = npMean ys := by
  unfold npMean
  rw [h.sum_eq, h.length_eq]

lemma npVarP_perm {xs ys : List ℚ} (h : xs.Perm ys) : npVarP xs = npVarP ys := by
  unfold npVarP
  rw [npMean_perm h, (h.map (fun x => (x - npMean ys) ^ 2)).sum_eq, h.length_eq]

lemma npMedian_perm {xs ys : List ℚ} (h : xs.Perm ys) : npMedian xs = npMedian ys := by
  unfold npMedian
  rw [sortQ_perm_eq h, h.length_eq]

lemma npQuantile_perm {xs ys : List ℚ} (h : xs.Perm ys) (q : ℚ) :
    npQuantile xs q = npQuantile ys q := by
  unfold npQuantile
  rw [sortQ_perm_eq h, h.length_eq]

lemma reduce_model_stats_perm {xs ys : List ℚ} (h : xs.Perm ys) :
    reduce_model_stats xs = reduce_model_stats ys := by
  unfold reduce_model_stats
  rw [npMean_perm h, npMedian_perm h, npVarP_perm h, npMinimum_perm h,
    npMaximum_perm h, npQuantile_perm h (1/4), npQuantile_perm h (3/4)]

/-- The ensemble cube: the model axis replaced by named statistic variables,
one value per cell, plus the `sample_size` attribute. -/
@[ext]
structure EnsembleCube (ι : Type) where
  value_mean : ι → ℚ
  value_median : ι → ℚ
  value_stddev_sq : ι → ℚ
  value_min : ι → ℚ
  value_max : ι → ℚ
  value_q1 : ι → ℚ
  value_q3 : ι → ℚ
  sample_size : ℕ

/-- The stack built by `load_data`: one named grid per validated model
(`ι` indexes the grid cells). -/
structure ModelStack (ι : Type) where
  members : List (String × (ι → ℚ))

/-- The values along the model axis at one cell. -/
def stackValues {ι : Type} (st : ModelStack ι) (c : ι) : List ℚ :=
  st.members.map (fun m => m.2 c)

/-- The `ensemble_members` attribute assigned by `load_data`
(`da.assign_attrs(ensemble_members=da.model.values)`): the names of the
stacked models. -/
def ensemble_members {ι : Type} (st : ModelStack ι) : List String :=
  st.members.map Prod.fst

/-- `reduce_model_stats` over the whole stack: per cell the statistics across
the model axis, with `sample_size = len(attrs.get("ensemble_members", []))`. -/
def reduce_model_stats_grid {ι : Type} (st : ModelStack ι) : EnsembleCube ι where
  value_mean := fun c => (reduce_model_stats (stackValues st c)).value_mean
  value_median := fun c => (reduce_model_stats (stackValues st c)).value_median
  value_stddev_sq := fun c => (reduce_model_stats (stackValues st c)).value_stddev_sq
  value_min := fun c => (reduce_model_stats (stackValues st c)).value_min
  value_max := fun c => (reduce_model_stats (stackValues st c)).value_max
  value_q1 := fun c => (reduce_model_stats (stackValues st c)).value_q1
  value_q3 := fun c => (reduce_model_stats (stackValues st c)).value_q3
  sample_size := (ensemble_members st).length

/-- C5: for every stack of per-model climatology grids, the ensemble
reduction output is invariant under any permutation of the model axis, and
the resulting cube's `sample_size` equals the number of contributing
models. -/
theorem reduce_model_stats_grid_perm_invariant {ι : Type} (st st2 : ModelStack ι)
    (h : st.members.Perm st2.members) :
    reduce_model_stats_grid st = reduce_model_stats_grid st2 ∧
    (reduce_model_stats_grid st).sample_size = st.members.length := by
  have hcell : ∀ c, (stackValues st c).Perm (stackValues st2 c) := fun c => h.map _
  constructor
  · unfold reduce_model_stats_grid
    have hss : (ensemble_members st).length = (ensemble_members st2).length := by
      unfold ensemble_members
      rw [List.length_map, List.length_map, h.length_eq]
    congr 1
    all_goals (funext c; rw [reduce_model_stats_perm (hcell c)])
  · unfold reduce_model_stats_grid ensemble_members
    rw [List.length_map]

/-- Witness for C4 at the concrete ensemble `[3, 1, 2]`. -/
theorem reduce_model_stats_correct_witness :
    (([3, 1, 2] : List ℚ) ≠ []) ∧ ensembleStatsCorrect [3, 1, 2] :=
  ⟨by simp, reduce_model_stats_correct [3, 1, 2] (by simp)⟩

/-- A two-model stack over a one-cell grid. -/
def stackA : ModelStack Unit :=
  { members := [("modelA", fun _ => 1), ("modelB", fun _ => 2)] }

/-- The same stack with the model axis swapped. -/
def stackB : ModelStack Unit :=
  { members := [("modelB", fun _ => 2), ("modelA", fun _ => 1)] }

/-- Witness for C5 at a concrete two-model stack and its swap. -/
theorem reduce_model_stats_grid_perm_invariant_witness :
    stackA.members.Perm stackB.members ∧
    (reduce_model_stats_grid stackA = reduce_model_stats_grid stackB ∧
     (reduce_model_stats_grid stackA).sample_size = stackA.members.length) :=
  ⟨List.Perm.swap _ _ _,
    reduce_model_stats_grid_perm_invariant stackA stackB (List.Perm.swap _ _ _)⟩


/-! ## Part D: line-geometry zonal aggregation

Embeds `zonal_aggregation_linestring` from
`data_processing/infraxclimate/scenariomip/infra_intersection.py`: every line
feature is resampled into its vertex points, the vertices are point-sampled
against the climate dataset, and the resulting per-vertex rows — which still
carry their vertex geometry column — are deduplicated with `drop_duplicates`
and grouped by `(osm_id, decade, month)` with the fixed per-column
aggregation dictionary of the source. -/

/-- The statistic columns of one intersection DataFrame row. -/
structure StatsRow where
  value_mean : ℚ
  value_median : ℚ
  value_stddev : ℚ
  value_min : ℚ
  value_max : ℚ
  value_q1 : ℚ
  value_q3 : ℚ
deriving DecidableEq

/-- One row of the per-vertex DataFrame produced by `xvec.extract_points`
followed by `convert_ds_to_df`: feature id, the decade and month split out of
the decade-month label, the sampled vertex geometry — the frame keeps its
`geometry` column at this point — and the statistic columns. `V` is the
vertex (point geometry) type. -/
structure VertexRow (V : Type) where
  osm_id : ℕ
  decade : ℕ
  month : ℕ
  geometry : V
  stats : StatsRow
deriving DecidableEq

/-- One output row of the line aggregation: after the groupby and
`reset_index` only the key columns and the aggregated statistic columns
remain; the geometry column is gone. -/
structure ClimRow where
  osm_id : ℕ
  decade : ℕ
  month : ℕ
  stats : StatsRow
deriving DecidableEq

/-- The groupby key `(osm_id, decade, month)` of an output row. -/
def rowKey (r : ClimRow) : ℕ × ℕ × ℕ := (r.osm_id, r.decade, r.month)

/-- The groupby key `(osm_id, decade, month)` of a per-vertex row. -/
def vertexKey {V : Type} (r : VertexRow V) : ℕ × ℕ × ℕ :=
  (r.osm_id, r.decade, r.month)

/-- The fixed per-column aggregation dictionary of
`zonal_aggregation_linestring` (`.agg({"value_mean": "mean", "value_median":
"mean", "value_stddev": "mean", "value_min": "min", "value_max": "max",
"value_q1": "min", "value_q3": "max"})`). -/
def aggFixed {V : Type} (g : List (VertexRow V)) : StatsRow where
  value_mean := npMean (g.map (fun r => r.stats.value_mean))
  value_median := npMean (g.map (fun r => r.stats.value_median))
  value_stddev := npMean (g.map (fun r => r.stats.value_stddev))
  value_min := npMinimum (g.map (fun r => r.stats.value_min))
  value_max := npMaximum (g.map (fun r => r.stats.value_max))
  value_q1 := npMinimum (g.map (fun r => r.stats.value_q1))
  value_q3 := npMaximum (g.map (fun r => r.stats.value_q3))

/-- `zonal_aggregation_linestring` from the per-vertex rows on: if no vertex
was sampled the result is an empty DataFrame; otherwise `drop_duplicates`
removes only rows identical in every column — the vertex geometry included,
so equal values sampled at distinct vertices are all kept — and the rows are
grouped by `(osm_id, decade, month)` and reduced with the fixed aggregation
dictionary, one geometry-less row per group. -/
def zonal_aggregation_linestring {V : Type} [DecidableEq V]
    (rows : List (VertexRow V)) : List ClimRow :=
  if rows.isEmpty then []
  else
    ((rows.dedup.map vertexKey).dedup).map
      (fun k => { osm_id := k.1, decade := k.2.1, month := k.2.2,
                  stats := aggFixed (rows.dedup.filter (fun r => vertexKey r == k)) })

/-- Vertex resampling: each line feature `(osm_id, vertices)` is broken into
its vertex points and each vertex is point-sampled against the climate
dataset, one row per vertex per decade-month carrying the vertex geometry;
`sample v` is the list of `((decade, month), stats)` extracted at vertex
`v`. -/
def linesToRows {V : Type} (sample : V → List ((ℕ × ℕ) × StatsRow))
    (lines : List (ℕ × List V)) : List (VertexRow V) :=
  lines.flatMap (fun f =>
    f.2.flatMap (fun v =>
      (sample v).map (fun p =>
        { osm_id := f.1, decade := p.1.1, month := p.1.2,
          geometry := v, stats := p.2 })))

/-- The aggregation methods the pipeline can be configured with
(`zonal_agg_method`). -/
inductive AggMethod
  | mean
  | amin
  | amax
deriving DecidableEq

def applyAggMethod : AggMethod → List ℚ → ℚ
  | .mean => npMean
  | .amin => npMinimum
  | .amax => npMaximum

/-- Spec-side line aggregation: every statistic column of a group reduced
with the one configured aggregation method. -/
def spec_line_aggregation {V : Type} (m : AggMethod)
    (rows : List (VertexRow V)) : List ClimRow :=
  if rows.isEmpty then []
  else
    ((rows.map vertexKey).dedup).map
      (fun k =>
        { osm_id := k.1, decade := k.2.1, month := k.2.2,
          stats :=
            { value_mean := applyAggMethod m ((rows.filter
                (fun r => vertexKey r == k)).map (fun r => r.stats.value_mean)),
              value_median := applyAggMethod m ((rows.filter
                (fun r => vertexKey r == k)).map (fun r => r.stats.value_median)),
              value_stddev := applyAggMethod m ((rows.filter
                (fun r => vertexKey r == k)).map (fun r => r.stats.value_stddev)),
              value_min := applyAggMethod m ((rows.filter
                (fun r => vertexKey r == k)).map (fun r => r.stats.value_min)),
              value_max := applyAggMethod m ((rows.filter
                (fun r => vertexKey r == k)).map (fun r => r.stats.value_max)),
              value_q1 := applyAggMethod m ((rows.filter
                (fun r => vertexKey r == k)).map (fun r => r.stats.value_q1)),
              value_q3 := applyAggMethod m ((rows.filter
                (fun r => vertexKey r == k)).map (fun r => r.stats.value_q3)) } })

/-- A row of identical statistic columns, as in the repository's tests where
every statistic variable holds the same sampled grid. -/
def constStats (x : ℚ) : StatsRow := ⟨x, x, x, x, x, x, x⟩

/-- A vertex sample: all statistic columns are 0 at vertex 0 and 4 at
vertex 1, for the single decade-month (2050, 1). -/
def cexSample : ℕ → List ((ℕ × ℕ) × StatsRow) := fun v =>
  if v = 0 then [((2050, 1), constStats 0)] else [((2050, 1), constStats 4)]

/-- One two-vertex line feature with id 7. -/
def cexLines : List (ℕ × List ℕ) := [(7, [0, 1])]

lemma cexRows : linesToRows cexSample cexLines =
    [{ osm_id := 7, decade := 2050, month := 1, geometry := 0,
       stats := constStats 0 },
     { osm_id := 7, decade := 2050, month := 1, geometry := 1,
       stats := constStats 4 }] := rfl

lemma cexCode : zonal_aggregation_linestring (linesToRows cexSample cexLines) =
    [{ osm_id := 7, decade := 2050, month := 1,
       stats := ⟨2, 2, 2, 0, 4, 0, 4⟩ }] := by
  rw [cexRows]
  norm_num [zonal_aggregation_linestring, aggFixed, npMean, npMinimum, npMaximum,
    List.dedup_cons_of_not_mem, vertexKey, constStats]

lemma cexSpecMean : spec_line_aggregation AggMethod.mean
    (linesToRows cexSample cexLines) =
    [{ osm_id := 7, decade := 2050, month := 1,
       stats := ⟨2, 2, 2, 2, 2, 2, 2⟩ }] := by
  rw [cexRows]
  norm_num [spec_line_aggregation, applyAggMethod, npMean, vertexKey, constStats]

lemma cexSpecMin : spec_line_aggregation AggMethod.amin
    (linesToRows cexSample cexLines) =
    [{ osm_id := 7, decade := 2050, month := 1,
       stats := ⟨0, 0, 0, 0, 0, 0, 0⟩ }] := by
  rw [cexRows]
  norm_num [spec_line_aggregation, applyAggMethod, npMinimum, vertexKey, constStats]

lemma cexSpecMax : spec_line_aggregation AggMethod.amax
    (linesToRows cexSample cexLines) =
    [{ osm_id := 7, decade := 2050, month := 1,
       stats := ⟨4, 4, 4, 4, 4, 4, 4⟩ }] := by
  rw [cexRows]
  norm_num [spec_line_aggregation, applyAggMethod, npMaximum, vertexKey, constStats]

/-- C6 counterexample: for a two-vertex line whose vertex samples are 0 and
4 in every statistic column, the code's line aggregation returns the mixed
row (2, 2, 2, 0, 4, 0, 4), which differs from reducing every column with any
single configured method (mean, min or max) — the code ignores the
configured `zonal_agg_method` for lines and applies a fixed per-column
dictionary. -/
theorem zonal_aggregation_linestring_not_configured :
    zonal_aggregation_linestring (linesToRows cexSample cexLines) ≠
      spec_line_aggregation AggMethod.mean (linesToRows cexSample cexLines) ∧
    zonal_aggregation_linestring (linesToRows cexSample cexLines) ≠
      spec_line_aggregation AggMethod.amin (linesToRows cexSample cexLines) ∧
    zonal_aggregation_linestring (linesToRows cexSample cexLines) ≠
      spec_line_aggregation AggMethod.amax (linesToRows cexSample cexLines) := by
  rw [cexCode, cexSpecMean, cexSpecMin, cexSpecMax]
  norm_num

/-- The vertex sample of the repository's `test_infra_intersection` line
scenario: the line feature 4 with vertices (0,0), (1,1), (2,2) and (2,3)
point-samples the grid values 10, 200, 3000 and 10 for the single
decade-month (2020, 1). -/
def repoTestSample : (ℕ × ℕ) → List ((ℕ × ℕ) × StatsRow) := fun v =>
  [((2020, 1), constStats
    (if v = (0, 0) then 10 else if v = (1, 1) then 200
     else if v = (2, 2) then 3000 else 10))]

/-- The line feature of the repository's test. -/
def repoTestLines : List (ℕ × List (ℕ × ℕ)) :=
  [(4, [(0, 0), (1, 1), (2, 2), (2, 3)])]

/-- The four per-vertex rows of the repository's line scenario. -/
def repoRow1 : VertexRow (ℕ × ℕ) := ⟨4, 2020, 1, (0, 0), constStats 10⟩

/-- See `repoRow1`. -/
def repoRow2 : VertexRow (ℕ × ℕ) := ⟨4, 2020, 1, (1, 1), constStats 200⟩

/-- See `repoRow1`. -/
def repoRow3 : VertexRow (ℕ × ℕ) := ⟨4, 2020, 1, (2, 2), constStats 3000⟩

/-- See `repoRow1`. -/
def repoRow4 : VertexRow (ℕ × ℕ) := ⟨4, 2020, 1, (2, 3), constStats 10⟩

/-- The repository's own line scenario: the two rows with value 10 sit at
distinct vertices, so `drop_duplicates` keeps both and the mean-aggregated
columns are (10 + 200 + 3000 + 10) / 4 = 805, as the repository's test
expects. -/
lemma zonal_aggregation_linestring_repo_test :
    zonal_aggregation_linestring (linesToRows repoTestSample repoTestLines) =
      [{ osm_id := 4, decade := 2020, month := 1,
         stats := ⟨805, 805, 805, 10, 3000, 10, 3000⟩ }] := by
  have hrows : linesToRows repoTestSample repoTestLines =
      [repoRow1, repoRow2, repoRow3, repoRow4] := rfl
  have hnodup : ([repoRow1, repoRow2, repoRow3, repoRow4] :
      List (VertexRow (ℕ × ℕ))).Nodup := by
    apply List.Nodup.of_map (fun r => r.geometry)
    decide
  have hd : [repoRow1, repoRow2, repoRow3, repoRow4].dedup =
      [repoRow1, repoRow2, repoRow3, repoRow4] := List.dedup_eq_self.2 hnodup
  rw [hrows]
  unfold zonal_aggregation_linestring
  rw [if_neg (by simp : ¬(([repoRow1, repoRow2, repoRow3, repoRow4] :
    List (VertexRow (ℕ × ℕ))).isEmpty = true))]
  rw [hd]
  have hkeys : (([repoRow1, repoRow2, repoRow3, repoRow4].map vertexKey).dedup) =
      [(4, 2020, 1)] := by decide
  rw [hkeys]
  norm_num [aggFixed, npMean, npMinimum, npMaximum, vertexKey,
    repoRow1, repoRow2, repoRow3, repoRow4, constStats]

/-- C6 amended: line aggregation resamples each line into its vertices,
point-samples each vertex, drops fully duplicate rows (rows identical in
every column, the vertex geometry included, so equal values sampled at
distinct vertices all contribute), and reduces all remaining rows sharing
`(feature, decade, month)` with a fixed per-statistic scheme — mean for
value_mean/value_median/value_stddev, min for value_min/value_q1, max for
value_max/value_q3, independent of the configured aggregation method — into
exactly one row per feature per decade-month. -/
theorem zonal_aggregation_linestring_one_row_per_key {V : Type} [DecidableEq V]
    (sample : V → List ((ℕ × ℕ) × StatsRow)) (lines : List (ℕ × List V)) :
    ((zonal_aggregation_linestring (linesToRows sample lines)).map rowKey).Nodup ∧
    (∀ k, k ∈ (zonal_aggregation_linestring (linesToRows sample lines)).map rowKey ↔
      k ∈ (linesToRows sample lines).map vertexKey) ∧
    (∀ r ∈ zonal_aggregation_linestring (linesToRows sample lines),
      r.stats = aggFixed ((linesToRows sample lines).dedup.filter
        (fun r2 => vertexKey r2 == rowKey r))) := by
  by_cases hemp : (linesToRows sample lines).isEmpty
  · have hnil : linesToRows sample lines = [] := List.isEmpty_iff.1 hemp
    rw [hnil]
    refine ⟨by simp [zonal_aggregation_linestring],
      by simp [zonal_aggregation_linestring], by simp [zonal_aggregation_linestring]⟩
  · have hout : zonal_aggregation_linestring (linesToRows sample lines) =
        (((linesToRows sample lines).dedup.map vertexKey).dedup).map
          (fun k => { osm_id := k.1, decade := k.2.1, month := k.2.2,
                      stats := aggFixed ((linesToRows sample lines).dedup.filter
                        (fun r => vertexKey r == k)) }) := by
      unfold zonal_aggregation_linestring
      rw [if_neg hemp]
    have hkeys : (zonal_aggregation_linestring (linesToRows sample lines)).map rowKey =
        ((linesToRows sample lines).dedup.map vertexKey).dedup := by
      rw [hout, List.map_map]
      exact List.map_id'' (fun k => rfl) _
    refine ⟨?_, ?_, ?_⟩
    · rw [hkeys]
      exact List.nodup_dedup _
    · intro k
      rw [hkeys]
      simp only [List.mem_dedup, List.mem_map]
    · intro r hr
      rw [hout] at hr
      obtain ⟨k, hk, rfl⟩ := List.mem_map.1 hr
      rfl

/-- Witness for C6's amended theorem at the concrete two-vertex line. -/
theorem zonal_aggregation_linestring_one_row_per_key_witness :
    ((zonal_aggregation_linestring (linesToRows cexSample cexLines)).map rowKey).Nodup ∧
    (∀ k, k ∈ (zonal_aggregation_linestring (linesToRows cexSample cexLines)).map rowKey ↔
      k ∈ (linesToRows cexSample cexLines).map vertexKey) ∧
    (∀ r ∈ zonal_aggregation_linestring (linesToRows cexSample cexLines),
      r.stats = aggFixed ((linesToRows cexSample cexLines).dedup.filter
        (fun r2 => vertexKey r2 == rowKey r))) :=
  zonal_aggregation_linestring_one_row_per_key cexSample cexLines

/-! ## Part E: polygon zonal aggregation and failure isolation

Embeds `zonal_aggregation_polygon` and `zonal_aggregation` from
`data_processing/infraxclimate/scenariomip/infra_intersection.py`. The
per-chunk worker computation (`task_xvec_zonal_stats`, backed by the external
`exactextract` library) is abstracted as a fallible function; the point and
line stages' outputs are the already-computed row lists. -/

/-- Geometry kinds distinguished by `zonal_aggregation` (`geom_type.isin`). -/
inductive GeomKind
  | point
  | multiPoint
  | lineString
  | multiLineString
  | polygon
  | multiPolygon
deriving DecidableEq

/-- `point_geom_types = ["Point", "MultiPoint"]` -/
def isPointKind : GeomKind → Bool
  | .point => true
  | .multiPoint => true
  | _ => false

/-- `line_geom_types = ["LineString", "MultiLineString"]` -/
def isLineKind : GeomKind → Bool
  | .lineString => true
  | .multiLineString => true
  | _ => false

/-- `polygon_geom_types = ["Polygon", "MultiPolygon"]` -/
def isPolygonKind : GeomKind → Bool
  | .polygon => true
  | .multiPolygon => true
  | _ => false

/-- The sizes of the chunks of `np.array_split(arr, n)`: `len % n` chunks of
size `len / n + 1` followed by chunks of size `len / n`. -/
def chunkSizes (len n : ℕ) : List ℕ :=
  (List.range n).map (fun i => if i < len % n then len / n + 1 else len / n)

/-- Cut a list into consecutive chunks of the given sizes. -/
def takeChunks {α : Type} (l : List α) : List ℕ → List (List α)
  | [] => []
  | s :: rest => l.take s :: takeChunks (l.drop s) rest

/-- `np.array_split(arr, n)`: `n` contiguous chunks whose sizes differ by at
most one; raises `ValueError` for `n = 0`. -/
def array_split {α : Type} (l : List α) (n : ℕ) : Except String (List (List α)) :=
  if n = 0 then Except.error "number sections must be larger than 0"
  else Except.ok (takeChunks l (chunkSizes l.length n))

/-- `pd.concat`: raises `ValueError` when handed no objects. -/
def pd_concat {α : Type} (dfs : List (List α)) : Except String (List α) :=
  if dfs.isEmpty then Except.error "No objects to concatenate"
  else Except.ok dfs.flatten

/-- `zonal_aggregation_polygon`: the polygon features are split into
`min(os.cpu_count(), len(infra.geometry))` chunks with `np.array_split`, each
chunk is handed to `task_xvec_zonal_stats` in a worker process (abstracted as
`task`, which may raise), and the results of the futures are concatenated;
a future whose worker raised is logged and skipped
(`results` keeps only the successful futures). -/
def zonal_aggregation_polygon {F Row : Type} (cpu_count : ℕ)
    (task : List F → Except String (List Row)) (infra : List F) :
    Except String (List Row) :=
  match array_split infra (min cpu_count infra.length) with
  | Except.error e => Except.error e
  | Except.ok chunks => pd_concat ((chunks.map task).filterMap Except.toOption)

/-- `zonal_aggregation`: the features are partitioned by geometry kind, the
point and line subsets are aggregated (their already-computed rows are
`point_rows` and `line_rows`), the polygon subset goes through the parallel
polygon stage, and the three results are concatenated. -/
def zonal_aggregation {F Row : Type} (cpu_count : ℕ)
    (point_rows line_rows : List Row)
    (task : List (GeomKind × F) → Except String (List Row))
    (infra : List (GeomKind × F)) : Except String (List Row) :=
  match zonal_aggregation_polygon cpu_count task
      (infra.filter (fun f => isPolygonKind f.1)) with
  | Except.error e => Except.error e
  | Except.ok df_polygon => Except.ok (point_rows ++ line_rows ++ df_polygon)

/-- C8 counterexample: when the only polygon chunk raises, no future result
is appended and `pd.concat` of zero objects raises, so the aggregation — and
with it the run — fails instead of continuing to persistence with the point
and line rows. -/
theorem zonal_aggregation_all_chunks_failed_error :
    zonal_aggregation 4 ([0] : List ℕ) [1]
      (fun _ => Except.error "boom")
      ([(GeomKind.polygon, 0)] : List (GeomKind × ℕ)) =
      Except.error "No objects to concatenate" := by
  rfl

/-- C8 amended: if a polygon worker chunk raises during parallel zonal
aggregation, the exception is caught and the chunk contributes no rows, and —
provided at least one chunk's future succeeds — the results of the other
chunks and the point and line rows are still concatenated and returned, so
the run continues to persistence; only the successful chunks' rows appear. -/
theorem zonal_aggregation_failed_chunk_isolated {F Row : Type} (cpu_count : ℕ)
    (point_rows line_rows : List Row)
    (task : List (GeomKind × F) → Except String (List Row))
    (infra : List (GeomKind × F)) (chunks : List (List (GeomKind × F)))
    (hsplit : array_split (infra.filter (fun f => isPolygonKind f.1))
        (min cpu_count (infra.filter (fun f => isPolygonKind f.1)).length) =
        Except.ok chunks)
    (hsome : ∃ c ∈ chunks, (task c).isOk) :
    zonal_aggregation cpu_count point_rows line_rows task infra =
      Except.ok (point_rows ++ line_rows ++
        ((chunks.map task).filterMap Except.toOption).flatten) := by
  unfold zonal_aggregation zonal_aggregation_polygon
  rw [hsplit]
  have hne : ((chunks.map task).filterMap Except.toOption) ≠ [] := by
    obtain ⟨c, hc, hok⟩ := hsome
    obtain ⟨v, hv⟩ : ∃ v, task c = Except.ok v := by
      cases htc : task c with
      | ok v => exact ⟨v, rfl⟩
      | error e =>
          rw [htc] at hok
          simp [Except.isOk, Except.toBool] at hok
    apply List.ne_nil_of_mem
    show v ∈ _
    exact List.mem_filterMap.2 ⟨task c, List.mem_map.2 ⟨c, hc, rfl⟩, by rw [hv]; rfl⟩
  have hemp : ((chunks.map task).filterMap Except.toOption).isEmpty = false := by
    rw [List.isEmpty_eq_false]
    exact hne
  unfold pd_concat
  simp only [hemp]
  simp

/-- C10: if the feature set handed to `zonal_aggregation` contains zero
polygon-kind features, the polygon stage raises — the feature array is split
into `min(cpu_count, 0) = 0` sections and `np.array_split` rejects zero
sections — so the combined aggregation fails for the whole run instead of
returning the point and line rows; at least one polygon feature is an
unstated precondition of the aggregation entry point. -/
theorem zonal_aggregation_no_polygon_error {F Row : Type} (cpu_count : ℕ)
    (point_rows line_rows : List Row)
    (task : List (GeomKind × F) → Except String (List Row))
    (infra : List (GeomKind × F))
    (hpoly : infra.filter (fun f => isPolygonKind f.1) = []) :
    zonal_aggregation cpu_count point_rows line_rows task infra =
      Except.error "number sections must be larger than 0" := by
  unfold zonal_aggregation zonal_aggregation_polygon array_split
  rw [hpoly]
  simp

/-- Witness for C8's amended theorem: two single-feature chunks, the first
worker raising and the second succeeding. -/
theorem zonal_aggregation_failed_chunk_isolated_witness :
    (array_split ([(GeomKind.polygon, 0), (GeomKind.polygon, 1)].filter
        (fun f => isPolygonKind f.1))
        (min 2 (([(GeomKind.polygon, 0), (GeomKind.polygon, 1)] : List (GeomKind × ℕ)).filter
          (fun f => isPolygonKind f.1)).length) =
      Except.ok [[(GeomKind.polygon, 0)], [(GeomKind.polygon, 1)]]) ∧
    (∃ c ∈ [[(GeomKind.polygon, 0)], [(GeomKind.polygon, 1)]],
      ((fun c => if c = [(GeomKind.polygon, 1)] then Except.ok [(7 : ℕ)]
        else Except.error "boom") c).isOk) ∧
    zonal_aggregation 2 ([0] : List ℕ) [1]
      (fun c => if c = [(GeomKind.polygon, 1)] then Except.ok [(7 : ℕ)]
        else Except.error "boom")
      [(GeomKind.polygon, 0), (GeomKind.polygon, 1)] =
      Except.ok ([0] ++ [1] ++
        (([[(GeomKind.polygon, 0)], [(GeomKind.polygon, 1)]].map
          (fun c => if c = [(GeomKind.polygon, 1)] then Except.ok [(7 : ℕ)]
            else Except.error "boom")).filterMap Except.toOption).flatten) :=
  ⟨rfl, by decide,
    zonal_aggregation_failed_chunk_isolated 2 [0] [1] _ _ _ rfl (by decide)⟩

/-- Witness for C10 at a concrete feature set with one point and no polygon. -/
theorem zonal_aggregation_no_polygon_error_witness :
    (([(GeomKind.point, 0)] : List (GeomKind × ℕ)).filter
      (fun f => isPolygonKind f.1) = []) ∧
    zonal_aggregation 4 ([0] : List ℕ) [1]
      (fun _ => Except.ok [(7 : ℕ)]) [(GeomKind.point, 0)] =
      Except.error "number sections must be larger than 0" :=
  ⟨by decide, zonal_aggregation_no_polygon_error 4 [0] [1] _ _ (by decide)⟩

/-! ## Part F: transactional bulk load

Embeds `infra_intersection_load.main` from
`data_processing/infraxclimate/scenariomip/infra_intersection_load.py`: a
uniquely named staging table is created, the batch is bulk-copied into it,
one insert-select with `ON CONFLICT DO NOTHING` merges it into the permanent
fact table, and the staging table is dropped — all on one cursor inside one
transaction committed at the end. -/

/-- One row of the permanent fact table `climate.nasa_nex_{variable}`
(`TEMP_TABLE_COLUMNS`): the feature id, time/scenario keys, the statistic
columns and the metadata blob. -/
structure FactRow where
  osm_id : ℤ
  month : ℤ
  decade : ℤ
  ssp : ℤ
  stats : StatsRow
  metadata : String
deriving DecidableEq

/-- The natural key `(osm_id, decade, month, ssp)` of a fact row. -/
def naturalKey (r : FactRow) : ℤ × ℤ × ℤ × ℤ := (r.osm_id, r.decade, r.month, r.ssp)

/-- Whether the table holds a row with the given natural key. -/
def hasKey (table : List FactRow) (k : ℤ × ℤ × ℤ × ℤ) : Bool :=
  table.any (fun r => naturalKey r == k)

/-- The table satisfies the unique constraint on the natural key. -/
def keyNodup (table : List FactRow) : Prop := (table.map naturalKey).Nodup

/-- How many rows of the table carry the given natural key. -/
def countKey (table : List FactRow) (k : ℤ × ℤ × ℤ × ℤ) : ℕ :=
  ((table.map naturalKey).filter (fun k2 => k2 == k)).length

/-- The insert-select of the load (`INSERT INTO {fact} ... SELECT ... FROM
{temp} ON CONFLICT DO NOTHING`) under the fact table's unique constraint on
the natural key: each staged row is appended unless a row with its key is
already present (rows inserted earlier in the same statement included);
conflicting rows are skipped, never overwritten. -/
def insert_on_conflict_do_nothing (fact staged : List FactRow) : List FactRow :=
  staged.foldl (fun acc r => if hasKey acc (naturalKey r) then acc else acc ++ [r]) fact

/-- The database state seen by the loader: the permanent fact table and the
live staging tables by name. -/
structure DBState where
  fact : List FactRow
  staging : List (String × List FactRow)
deriving DecidableEq

/-- The names of the staging tables alive in the database. -/
def stagingNames (db : DBState) : List String := db.staging.map Prod.fst

/-- `CREATE TEMP TABLE {temp} (...)`. -/
def step_create (temp : String) (db : DBState) : DBState :=
  { db with staging := db.staging ++ [(temp, [])] }

/-- `COPY {temp} FROM STDIN`: the batch is bulk-appended into staging. -/
def step_copy (temp : String) (rows : List FactRow) (db : DBState) : DBState :=
  { db with staging := db.staging.map (fun t => if t.1 = temp then (t.1, rows) else t) }

/-- The content of the staging table with the given name. -/
def stagedRows (temp : String) (db : DBState) : List FactRow :=
  ((db.staging.filter (fun t => t.1 == temp)).map Prod.snd).flatten

/-- The insert-select statement applied to the database state. -/
def step_insert (temp : String) (db : DBState) : DBState :=
  { db with fact := insert_on_conflict_do_nothing db.fact (stagedRows temp db) }

/-- `DROP TABLE {temp}`. -/
def step_drop (temp : String) (db : DBState) : DBState :=
  { db with staging := db.staging.filter (fun t => t.1 != temp) }

/-- Modelled from the spec: the transactional semantics of the database
collaborator, which is outside this repository — the four statements run on
one cursor of one connection inside a single transaction that the source
commits only after the last statement (`conn.commit()`); if the sequence
completes, the working state is committed, and if any statement raises,
nothing was committed and the database keeps its prior state (full
rollback). `failAt = some i` means the i-th statement raised. -/
def run_transaction (db : DBState) (steps : List (DBState → DBState))
    (failAt : Option ℕ) : DBState :=
  match failAt with
  | none => steps.foldl (fun s f => f s) db
  | some _ => db

/-- `infra_intersection_load.main`: create the uniquely named temp table,
COPY the batch into it, insert-select into the fact table with ON CONFLICT
DO NOTHING, drop the temp table, then commit. -/
def infra_intersection_load_main (db : DBState) (temp : String)
    (rows : List FactRow) (failAt : Option ℕ) : DBState :=
  run_transaction db
    [step_create temp, step_copy temp rows, step_insert temp, step_drop temp] failAt

lemma hasKey_iff_mem {table : List FactRow} {k : ℤ × ℤ × ℤ × ℤ} :
    hasKey table k = true ↔ k ∈ table.map naturalKey := by
  unfold hasKey
  rw [List.any_eq_true]
  constructor
  · rintro ⟨r, hr, hb⟩
    exact List.mem_map.2 ⟨r, hr, eq_of_beq hb⟩
  · intro h
    obtain ⟨r, hr, hk⟩ := List.mem_map.1 h
    exact ⟨r, hr, by simp [hk]⟩

lemma hasKey_insert (fact rows : List FactRow) (k : ℤ × ℤ × ℤ × ℤ) :
    hasKey (insert_on_conflict_do_nothing fact rows) k =
      (hasKey fact k || rows.any (fun r => naturalKey r == k)) := by
  induction rows generalizing fact with
  | nil => simp [insert_on_conflict_do_nothing]
  | cons r rows ih =>
      unfold insert_on_conflict_do_nothing
      rw [List.foldl_cons]
      show hasKey (insert_on_conflict_do_nothing _ rows) k = _
      rw [ih]
      by_cases hr : hasKey fact (naturalKey r) = true
      · rw [if_pos hr]
        by_cases hk : naturalKey r == k
        · have : hasKey fact k = true := by
            rw [hasKey_iff_mem]
            rw [show k = naturalKey r from (eq_of_beq hk).symm]
            exact hasKey_iff_mem.1 hr
          simp [this, hk]
        · simp [List.any_cons, hk]
      · rw [if_neg hr]
        have happ : hasKey (fact ++ [r]) k = (hasKey fact k || (naturalKey r == k)) := by
          simp [hasKey, List.any_append]
        rw [happ]
        simp [List.any_cons]
        by_cases hk : naturalKey r == k <;> simp [hk]

lemma length_filter_key_eq_one {l : List (ℤ × ℤ × ℤ × ℤ)} {k : ℤ × ℤ × ℤ × ℤ}
    (hn : l.Nodup) (hm : k ∈ l) :
    (l.filter (fun k2 => k2 == k)).length = 1 := by
  induction l with
  | nil => simp at hm
  | cons a l ih =>
      rw [List.nodup_cons] at hn
      rcases List.mem_cons.1 hm with heq | hm2
      · subst heq
        rw [List.filter_cons_of_pos (by simp)]
        have hrest : l.filter (fun k2 => k2 == k) = [] := by
          apply List.filter_eq_nil_iff.mpr
          intro b hb
          simp only [beq_iff_eq]
          intro hc
          exact hn.1 (hc ▸ hb)
        rw [hrest]
        rfl
      · have hne : (a == k) = false := by
          simp only [beq_eq_false_iff_ne]
          intro hc
          exact hn.1 (hc ▸ hm2)
        rw [List.filter_cons_of_neg (by simp [hne])]
        exact ih hn.2 hm2

lemma keyNodup_insert (fact rows : List FactRow) (h : keyNodup fact) :
    keyNodup (insert_on_conflict_do_nothing fact rows) := by
  induction rows generalizing fact with
  | nil => simpa [insert_on_conflict_do_nothing] using h
  | cons r rows ih =>
      unfold insert_on_conflict_do_nothing
      rw [List.foldl_cons]
      show keyNodup (insert_on_conflict_do_nothing _ rows)
      by_cases hr : hasKey fact (naturalKey r) = true
      · rw [if_pos hr]
        exact ih fact h
      · rw [if_neg hr]
        apply ih
        have hrm : naturalKey r ∉ fact.map naturalKey := by
          intro hc
          exact hr (hasKey_iff_mem.2 hc)
        unfold keyNodup at h ⊢
        rw [List.map_append]
        simp [List.nodup_append, h, hrm]

lemma insert_noop (fact rows : List FactRow)
    (h : ∀ r ∈ rows, hasKey fact (naturalKey r) = true) :
    insert_on_conflict_do_nothing fact rows = fact := by
  induction rows with
  | nil => rfl
  | cons r rows ih =>
      unfold insert_on_conflict_do_nothing
      rw [List.foldl_cons, if_pos (h r (List.mem_cons_self r rows))]
      exact ih (fun r2 hr2 => h r2 (List.mem_cons_of_mem r hr2))

lemma load_success_state (db : DBState) (temp : String) (rows : List FactRow)
    (htemp : temp ∉ stagingNames db) :
    infra_intersection_load_main db temp rows none =
      { fact := insert_on_conflict_do_nothing db.fact rows, staging := db.staging } := by
  obtain ⟨fact, S⟩ := db
  have hS : ∀ t ∈ S, ¬(t.1 = temp) := by
    intro t ht hc
    exact htemp (List.mem_map.2 ⟨t, ht, hc⟩)
  unfold infra_intersection_load_main run_transaction
  simp only [List.foldl_cons, List.foldl_nil]
  unfold step_create step_copy step_insert step_drop stagedRows
  have hcopy : (S ++ [(temp, ([] : List FactRow))]).map
      (fun (t : String × List FactRow) =>
        if t.1 = temp then (t.1, rows) else t) = S ++ [(temp, rows)] := by
    rw [List.map_append]
    congr 1
    · calc S.map (fun (t : String × List FactRow) =>
            if t.1 = temp then (t.1, rows) else t) = S.map id :=
            List.map_congr_left
              (fun (t : String × List FactRow) ht => if_neg (hS t ht))
      _ = S := List.map_id S
    · simp
  simp only [hcopy]
  have hfilter : (S ++ [(temp, rows)]).filter (fun t => t.1 == temp) = [(temp, rows)] := by
    rw [List.filter_append]
    have h1 : S.filter (fun t => t.1 == temp) = [] := by
      apply List.filter_eq_nil_iff.mpr
      intro t ht
      simp [hS t ht]
    rw [h1]
    simp
  have hdrop : (S ++ [(temp, rows)]).filter (fun t => t.1 != temp) = S := by
    rw [List.filter_append]
    have h1 : S.filter (fun t => t.1 != temp) = S := by
      apply List.filter_eq_self.mpr
      intro t ht
      simp [hS t ht]
    have h2 : ([(temp, rows)] : List (String × List FactRow)).filter
        (fun t => t.1 != temp) = [] := by simp
    rw [h1, h2, List.append_nil]
  simp only [hfilter, hdrop]
  simp

/-- C9: if any statement of the bulk-load protocol (create staging, COPY into
staging, insert-select into the fact table, drop staging) raises, the whole
transaction is rolled back: the database — fact table included — is exactly
its prior state, and no staging table survives the run; on success the
uniquely named staging table is likewise gone at commit. -/
theorem bulk_load_rollback_on_failure (db : DBState) (rows : List FactRow)
    (temp : String) (k : ℕ) :
    infra_intersection_load_main db temp rows (some k) = db ∧
    (temp ∉ stagingNames db →
      stagingNames (infra_intersection_load_main db temp rows none) =
        stagingNames db) := by
  refine ⟨rfl, fun htemp => ?_⟩
  rw [load_success_state db temp rows htemp]
  rfl

/-- Witness for C9 at a concrete one-row load failing at the COPY step. -/
theorem bulk_load_rollback_on_failure_witness :
    infra_intersection_load_main ⟨[], []⟩ "t1"
      [⟨1, 1, 2050, 585, ⟨0, 0, 0, 0, 0, 0, 0⟩, "m"⟩] (some 1) = ⟨[], []⟩ ∧
    ("t1" ∉ stagingNames ⟨[], []⟩ →
      stagingNames (infra_intersection_load_main ⟨[], []⟩ "t1"
        [⟨1, 1, 2050, 585, ⟨0, 0, 0, 0, 0, 0, 0⟩, "m"⟩] none) =
        stagingNames ⟨[], []⟩) :=
  bulk_load_rollback_on_failure ⟨[], []⟩ _ "t1" 1

/-- C1: given the fact table's unique natural-key constraint, one bulk load
leaves the keys unique and exactly one persisted row per staged natural key,
and re-running the load with the same rows is a no-op — the second run's
conflicting rows are all skipped (first-writer-wins), nothing is
overwritten. -/
theorem bulk_load_idempotent (db : DBState) (rows : List FactRow)
    (temp temp2 : String) (hnodup : keyNodup db.fact)
    (htemp : temp ∉ stagingNames db) (htemp2 : temp2 ∉ stagingNames db) :
    keyNodup (infra_intersection_load_main db temp rows none).fact ∧
    (∀ r ∈ rows,
      countKey (infra_intersection_load_main db temp rows none).fact
        (naturalKey r) = 1) ∧
    infra_intersection_load_main
        (infra_intersection_load_main db temp rows none) temp2 rows none =
      infra_intersection_load_main db temp rows none := by
  rw [load_success_state db temp rows htemp]
  have hnodup1 : keyNodup (insert_on_conflict_do_nothing db.fact rows) :=
    keyNodup_insert _ _ hnodup
  have hall : ∀ r ∈ rows,
      hasKey (insert_on_conflict_do_nothing db.fact rows) (naturalKey r) = true := by
    intro r hr
    rw [hasKey_insert]
    have : rows.any (fun r2 => naturalKey r2 == naturalKey r) = true :=
      List.any_eq_true.2 ⟨r, hr, by simp⟩
    simp [this]
  refine ⟨hnodup1, ?_, ?_⟩
  · intro r hr
    exact length_filter_key_eq_one hnodup1 (hasKey_iff_mem.1 (hall r hr))
  · have htemp2b : temp2 ∉ stagingNames
        ({ fact := insert_on_conflict_do_nothing db.fact rows,
           staging := db.staging } : DBState) := htemp2
    rw [load_success_state _ temp2 rows htemp2b, insert_noop _ _ hall]

/-- Witness for C1: loading two rows that share the natural key
`(1, 2050, 1, 585)` twice into an empty store. -/
theorem bulk_load_idempotent_witness :
    (keyNodup (DBState.mk [] []).fact ∧
     "t1" ∉ stagingNames ⟨[], []⟩ ∧ "t2" ∉ stagingNames ⟨[], []⟩) ∧
    (keyNodup (infra_intersection_load_main ⟨[], []⟩ "t1"
        [⟨1, 1, 2050, 585, ⟨0, 0, 0, 0, 0, 0, 0⟩, "a"⟩,
         ⟨1, 1, 2050, 585, ⟨1, 1, 1, 1, 1, 1, 1⟩, "b"⟩] none).fact ∧
     (∀ r ∈ [(⟨1, 1, 2050, 585, ⟨0, 0, 0, 0, 0, 0, 0⟩, "a"⟩ : FactRow),
             ⟨1, 1, 2050, 585, ⟨1, 1, 1, 1, 1, 1, 1⟩, "b"⟩],
       countKey (infra_intersection_load_main ⟨[], []⟩ "t1"
         [⟨1, 1, 2050, 585, ⟨0, 0, 0, 0, 0, 0, 0⟩, "a"⟩,
          ⟨1, 1, 2050, 585, ⟨1, 1, 1, 1, 1, 1, 1⟩, "b"⟩] none).fact
         (naturalKey r) = 1) ∧
     infra_intersection_load_main
         (infra_intersection_load_main ⟨[], []⟩ "t1"
           [⟨1, 1, 2050, 585, ⟨0, 0, 0, 0, 0, 0, 0⟩, "a"⟩,
            ⟨1, 1, 2050, 585, ⟨1, 1, 1, 1, 1, 1, 1⟩, "b"⟩] none) "t2"
         [⟨1, 1, 2050, 585, ⟨0, 0, 0, 0, 0, 0, 0⟩, "a"⟩,
          ⟨1, 1, 2050, 585, ⟨1, 1, 1, 1, 1, 1, 1⟩, "b"⟩] none =
       infra_intersection_load_main ⟨[], []⟩ "t1"
         [⟨1, 1, 2050, 585, ⟨0, 0, 0, 0, 0, 0, 0⟩, "a"⟩,
          ⟨1, 1, 2050, 585, ⟨1, 1, 1, 1, 1, 1, 1⟩, "b"⟩] none) :=
  ⟨⟨by simp [keyNodup], by simp [stagingNames], by simp [stagingNames]⟩,
    bulk_load_idempotent ⟨[], []⟩ _ "t1" "t2" (by simp [keyNodup])
      (by simp [stagingNames]) (by simp [stagingNames])⟩
